import Mathlib

/-!
Verification development for the caption-decoding core of the
compositional-image-captioning repository
(src/models/bottom_up_top_down.py, src/train.py).

The decoder control algorithms (the greedy/teacher-forced decode loop
`TopDownDecoder.forward` and `TopDownDecoder.beam_search`) are shallowly
embedded over lists: a tensor with a leading per-sequence/per-beam dimension
becomes a Lean list of rows.  The neural-network primitives (embedding,
LSTM cells, visual attention, output projection) are learned parameters and
are treated as opaque row-wise functions supplied by the model record, as
are the per-image feature tensors; only the decoding control flow is
modelled concretely.  Scores are rationals.  Operations that can raise at
run time in Python/PyTorch (fancy indexing with an out-of-range index,
reading the never-assigned local variable alpha, reading incomplete_inds
before the loop body ever ran, topk with k larger than the number of
entries) are modelled in an Except monad.
-/

/-- Errors that the Python beam_search can raise at run time. -/
inductive BeamErr where
  /-- PyTorch IndexError: fancy indexing with an out-of-range index. -/
  | indexError
  /-- Python UnboundLocalError at line 227: the local variable alpha is read
  (alpha.view(...)) but is never assigned anywhere in beam_search;
  forward_step does not return attention weights. -/
  | unboundLocalAlpha
  /-- Python NameError at line 265: incomplete_inds is read after the loop
  although the loop body never executed, so it was never assigned. -/
  | nameErrorIncompleteInds
  /-- PyTorch RuntimeError: topk with k larger than the number of entries. -/
  | topkOutOfRange
  deriving Repr, DecidableEq

/-- Tensor fancy indexing xs[inds]: select the given rows, erroring on an
out-of-range index exactly as PyTorch raises IndexError. -/
def selectRows {α : Type} (xs : List α) (inds : List Nat) : Except BeamErr (List α) :=
  inds.mapM (fun i => match xs.get? i with
    | some v => Except.ok v
    | none => Except.error BeamErr.indexError)

/-- Indices of entries satisfying p, in increasing order: the embedding of
torch.nonzero(...).view(-1).tolist() applied to an elementwise predicate. -/
def nonzeroInds (p : Nat → Bool) (xs : List Nat) : List Nat :=
  (xs.enum.filter (fun q => p q.2)).map Prod.fst

/-- First index attaining the maximum of the list: torch.argmax(y) for a
single row (ties resolved to the lowest index). -/
def argmaxIdx (xs : List ℚ) : Nat :=
  (xs.enum.foldl (fun best q => if best.2 < q.2 then q else best) (0, xs.headD 0)).1

/-- Rowwise argmax: torch.argmax(y, dim=1). -/
def argmaxRows (y : List (List ℚ)) : List Nat :=
  y.map argmaxIdx

/-- Ordering used to model torch.topk(..., largest=True, sorted=True) on a
flattened tensor: larger values first, ties broken towards the smaller
(row-major earlier) index -- the fixed, stable, largest-first policy. -/
def topkRel (p q : Nat × ℚ) : Prop :=
  q.2 < p.2 ∨ (p.2 = q.2 ∧ p.1 ≤ q.1)

instance : DecidableRel topkRel := fun p q => by
  unfold topkRel; exact inferInstance

/-- The k largest (index, value) entries of a flattened score list, sorted
descending: torch.topk(k, 0, largest=True, sorted=True). -/
def topkPairs (xs : List ℚ) (k : Nat) : List (Nat × ℚ) :=
  (xs.enum.insertionSort topkRel).take k

/-- Values returned by topk. -/
def topkVals (xs : List ℚ) (k : Nat) : List ℚ :=
  (topkPairs xs k).map Prod.snd

/-- Flattened indices returned by topk (top_k_words in the source). -/
def topkIdx (xs : List ℚ) (k : Nat) : List Nat :=
  (topkPairs xs k).map Prod.fst

/-- Ordering of Python sorted(zip(scores, seqs), reverse=True): descending
lexicographic comparison of the (score, sequence) pair, where Python
compares the sequences themselves (list comparison) when scores tie. -/
def pairGe (p q : ℚ × List Nat) : Prop :=
  q.1 < p.1 ∨ (p.1 = q.1 ∧ q.2 ≤ p.2)

instance : DecidableRel pairGe := fun p q => by
  unfold pairGe; exact inferInstance

/-- Lines 270-275 of the source: sorted_sequences, the sequences of the
completed (score, sequence) pairs sorted by descending Python pair
comparison.  Distinct pairs are totally ordered, so the stable Python sort
agrees with any sort for this ordering. -/
def sortCompleted (complete_seqs_scores : List ℚ) (complete_seqs : List (List Nat)) :
    List (List Nat) :=
  ((complete_seqs_scores.zip complete_seqs).insertionSort pairGe).map Prod.snd

/-- The four decoder tensors (h1, c1, h2, c2), one row per active sequence.
The Python code keeps them in the list state = [h1, c1, h2, c2]. -/
structure DecoderState (σ : Type) where
  h1 : List σ
  c1 : List σ
  h2 : List σ
  c2 : List σ
  deriving Repr, DecidableEq

/-- The TopDownDecoder: the reserved token indices and vocabulary size from
word_map, the training flag, the learned initial state rows, and the
neural-network primitives as opaque batched row functions (σ hidden-state
rows, ι image-feature rows, ε embedded-word rows). -/
structure BUTDModel (σ ι ε : Type) where
  vocab_size : Nat
  token_start : Nat
  token_end : Nat
  max_caption_len : Nat
  training : Bool
  h1 : σ
  c1 : σ
  h2 : σ
  c2 : σ
  mean_pool : ι → ι
  embed_word : List Nat → List ε
  attention_lstm : List σ → List σ → List σ → List ι → List ε → List σ × List σ
  language_lstm : List σ → List σ → List σ → List ι → List σ × List σ
  attention : List ι → List σ → List ι
  predict_word : List σ → List (List ℚ)

variable {σ ι ε : Type}

/-- TopDownDecoder.forward_step (lines 102-110): one decoding timestep. -/
def forward_step (m : BUTDModel σ ι ε) (state : DecoderState σ) (prev_words : List Nat)
    (v_mean : List ι) (image_feats : List ι) : List (List ℚ) × DecoderState σ :=
  let prev_words_embedded := m.embed_word prev_words
  let (h1, c1) := m.attention_lstm state.h1 state.c1 state.h2 v_mean prev_words_embedded
  let v_hat := m.attention image_feats h1
  let (h2, c2) := m.language_lstm state.h2 state.c2 h1 v_hat
  let scores := m.predict_word h2
  (scores, ⟨h1, c1, h2, c2⟩)

/-- TopDownDecoder.update_previous_word (lines 112-126).  The draw argument
is the outcome of random.random() < self.teacher_forcing_ratio, which Python
only samples when self.training is set.  target_words is None (modelled as
Option.none) at inference and in beam_search; the claims below only exercise
the argmax branch, so the teacher-forcing column read uses a default for the
out-of-range case Python would raise on. -/
def update_previous_word (m : BUTDModel σ ι ε) (draw : Bool) (y : List (List ℚ))
    (target_words : Option (List (List Nat))) (t : Nat) : List Nat :=
  if m.training && draw then
    (target_words.getD []).map (fun row => row.getD (t + 1) 0)
  else
    argmaxRows y

/-- TopDownDecoder.init_inference (lines 128-140): replicate the learned
initial state rows batch_size times and start every sequence at the start
token. -/
def init_inference (m : BUTDModel σ ι ε) (batch_size : Nat) :
    DecoderState σ × List Nat :=
  (⟨List.replicate batch_size m.h1, List.replicate batch_size m.c1,
    List.replicate batch_size m.h2, List.replicate batch_size m.c2⟩,
   List.replicate batch_size m.token_start)

/-- Per-beam loop state of TopDownDecoder.beam_search.  incomplete_inds is
Option-valued because Python only assigns it inside the loop body; reading
it when the body never ran raises NameError. -/
structure BeamLocals (σ ι : Type) where
  current_beam_width : Nat
  image_features : List ι
  top_k_sequences : List (List Nat)
  top_k_scores : List ℚ
  complete_seqs : List (List Nat)
  complete_seqs_scores : List ℚ
  states : DecoderState σ
  prev_words : List Nat
  incomplete_inds : Option (List Nat)

/-- Observations recorded for each executed beam-search step: the prev_words
tensor fed to forward_step at this step, the sequences right after the new
tokens were appended (line 218), and the sequences as left at the end of the
iteration (after line 256 filtering, or unfiltered at a break). -/
structure TraceEntry where
  prevFed : List Nat
  seqsAll : List (List Nat)
  seqsKept : List (List Nat)
  deriving Repr, DecidableEq

/-- Line 199-201: add each beam row's cumulative score to every entry of its
vocabulary score row (broadcast add). -/
def addCumulativeScores (top_k_scores : List ℚ) (scores : List (List ℚ)) :
    List (List ℚ) :=
  List.zipWith (fun s row => row.map (fun x => s + x)) top_k_scores scores

/-- Lines 203-209: the flattened score list handed to topk.  For step 0 only
row 0 is considered (all rows start from identical state); afterwards the
whole (width x vocab) matrix is flattened. -/
def flattenForStep (step : Nat) (scoresAdded : List (List ℚ)) : List ℚ :=
  if step = 0 then scoresAdded.getD 0 [] else scoresAdded.flatten

/-- Line 209-211: the flattened indices selected by topk (top_k_words). -/
def stepTopkWords (flat : List ℚ) (k : Nat) : List Nat :=
  topkIdx flat k

/-- Line 214: prev_seq_inds = top_k_words / vocab_size (integer division of
index tensors, the semantics of / on long tensors in the PyTorch version
this code targets). -/
def stepPrevSeqInds (vocab_size : Nat) (top_k_words : List Nat) : List Nat :=
  top_k_words.map (fun i => i / vocab_size)

/-- Line 215: next_words = top_k_words % vocab_size. -/
def stepNextWords (vocab_size : Nat) (top_k_words : List Nat) : List Nat :=
  top_k_words.map (fun i => i % vocab_size)

/-- One iteration of the beam_search loop (lines 190-262).  Returns the
updated locals, the sequences as of line 218 (for the trace), and whether
the loop broke at line 252-253.  The dead local y_out (written at line 194,
never read or returned) is omitted. -/
def beamSearchStep (m : BUTDModel σ ι ε) (draw : Bool) (v_mean : List ι)
    (store_alphas : Bool) (step : Nat) (L : BeamLocals σ ι) :
    Except BeamErr (BeamLocals σ ι × List (List Nat) × Bool) := do
  let (scores0, states1) := forward_step m L.states L.prev_words v_mean L.image_features
  let prev_words1 := update_previous_word m draw scores0 none step
  let scoresAdded := addCumulativeScores L.top_k_scores scores0
  let flat := flattenForStep step scoresAdded
  if flat.length < L.current_beam_width then throw BeamErr.topkOutOfRange
  let top_k_scores1 := topkVals flat L.current_beam_width
  let top_k_words := stepTopkWords flat L.current_beam_width
  let prev_seq_inds := stepPrevSeqInds m.vocab_size top_k_words
  let next_words := stepNextWords m.vocab_size top_k_words
  let gathered ← selectRows L.top_k_sequences prev_seq_inds
  let top_k_sequences1 := List.zipWith (fun s w => s ++ [w]) gathered next_words
  if store_alphas then throw BeamErr.unboundLocalAlpha
  let incomplete_inds := nonzeroInds (fun w => w != m.token_end) next_words
  let complete_inds := nonzeroInds (fun w => w == m.token_end) next_words
  let (complete_seqs1, complete_scores1) ←
    if complete_inds.length > 0 then do
      let cs ← selectRows top_k_sequences1 complete_inds
      let css ← selectRows top_k_scores1 complete_inds
      pure (L.complete_seqs ++ cs, L.complete_seqs_scores ++ css)
    else
      pure (L.complete_seqs, L.complete_seqs_scores)
  let current_beam_width1 := incomplete_inds.length
  if current_beam_width1 = 0 then
    return ({ L with
              current_beam_width := 0,
              top_k_sequences := top_k_sequences1,
              top_k_scores := top_k_scores1,
              complete_seqs := complete_seqs1,
              complete_seqs_scores := complete_scores1,
              states := states1,
              prev_words := prev_words1,
              incomplete_inds := some incomplete_inds },
            top_k_sequences1, true)
  let top_k_sequences2 ← selectRows top_k_sequences1 incomplete_inds
  let gInds ← selectRows prev_seq_inds incomplete_inds
  let sh1 ← selectRows states1.h1 gInds
  let sc1 ← selectRows states1.c1 gInds
  let sh2 ← selectRows states1.h2 gInds
  let sc2 ← selectRows states1.c2 gInds
  let image_features1 ← selectRows L.image_features gInds
  let top_k_scores2 ← selectRows top_k_scores1 incomplete_inds
  return ({ current_beam_width := current_beam_width1,
            image_features := image_features1,
            top_k_sequences := top_k_sequences2,
            top_k_scores := top_k_scores2,
            complete_seqs := complete_seqs1,
            complete_seqs_scores := complete_scores1,
            states := ⟨sh1, sc1, sh2, sc2⟩,
            prev_words := prev_words1,
            incomplete_inds := some incomplete_inds },
          top_k_sequences1, false)

/-- The for-loop of beam_search: for step in range(0, max_caption_len - 1),
with early break, threading the locals and recording a trace entry per
executed iteration.  coins gives the teacher-forcing draw of each step
(unused unless m.training is set). -/
def beamSearchLoop (m : BUTDModel σ ι ε) (coins : Nat → Bool) (v_mean : List ι)
    (store_alphas : Bool) :
    Nat → Nat → BeamLocals σ ι → List TraceEntry →
    Except BeamErr (BeamLocals σ ι × List TraceEntry)
  | _, 0, L, tr => Except.ok (L, tr)
  | step, fuel + 1, L, tr =>
    match beamSearchStep m (coins step) v_mean store_alphas step L with
    | Except.error e => Except.error e
    | Except.ok (L1, seqsAll, brk) =>
      let tr1 := tr ++ [⟨L.prev_words, seqsAll, L1.top_k_sequences⟩]
      if brk then Except.ok (L1, tr1)
      else beamSearchLoop m coins v_mean store_alphas (step + 1) fuel L1 tr1

/-- The initial beam locals (lines 152-183): features replicated beam_size
times, sequences seeded with the start token, zero scores, learned initial
state. -/
def beamInitLocals (m : BUTDModel σ ι ε) (image_feature : ι) (beam_size : Nat) :
    BeamLocals σ ι :=
  let image_features := List.replicate beam_size image_feature
  let (states, prev_words) := init_inference m beam_size
  { current_beam_width := beam_size,
    image_features := image_features,
    top_k_sequences := List.replicate beam_size [m.token_start],
    top_k_scores := List.replicate beam_size (0 : ℚ),
    complete_seqs := [],
    complete_seqs_scores := [],
    states := states,
    prev_words := prev_words,
    incomplete_inds := none }

/-- Lines 264-275 after the loop: force-complete from the still-active beams
when fewer than beam_size hypotheses completed (note Python re-applies the
last iteration's incomplete_inds to the already filtered arrays), then sort
the completed hypotheses.  The store_alphas return branch at lines 279-285
is unreachable: store_alphas always raises earlier. -/
def beamSearchFinish (beam_size : Nat) (L : BeamLocals σ ι) :
    Except BeamErr (List (List Nat)) := do
  let (cs, css) ←
    if L.complete_seqs.length < beam_size then
      match L.incomplete_inds with
      | none => throw BeamErr.nameErrorIncompleteInds
      | some ii => do
        let extra ← selectRows L.top_k_sequences ii
        let extraScores ← selectRows L.top_k_scores ii
        pure (L.complete_seqs ++ extra, L.complete_seqs_scores ++ extraScores)
    else
      pure (L.complete_seqs, L.complete_seqs_scores)
  pure (sortCompleted css cs)

/-- Initialization plus the decoding loop of beam_search, exposing the final
locals and the per-step trace. -/
def beamSearchRun (m : BUTDModel σ ι ε) (coins : Nat → Bool) (image_feature : ι)
    (beam_size max_caption_len : Nat) (store_alphas : Bool) :
    Except BeamErr (BeamLocals σ ι × List TraceEntry) :=
  let L0 := beamInitLocals m image_feature beam_size
  let v_mean := L0.image_features.map m.mean_pool
  beamSearchLoop m coins v_mean store_alphas 0 (max_caption_len - 1) L0 []

/-- TopDownDecoder.beam_search (lines 142-285).  print_beam only prints and
is a no-op here. -/
def beam_search (m : BUTDModel σ ι ε) (coins : Nat → Bool) (image_feature : ι)
    (beam_size : Nat) (max_caption_len : Nat) (store_alphas : Bool)
    (print_beam : Bool) : Except BeamErr (List (List Nat)) := do
  let (L, _) ← beamSearchRun m coins image_feature beam_size max_caption_len store_alphas
  beamSearchFinish beam_size L

/-- Lines 72-80: clamp the recorded decode length of every sequence whose
previous word is the end token to min(current, t). -/
def clampDecodeLengths (token_end : Nat) (decode_lengths prev_words : List Nat)
    (t : Nat) : List Nat :=
  List.zipWith (fun d w => if w = token_end then min d t else d)
    decode_lengths prev_words

/-- Lines 95-97: write this timestep's score rows into the output buffer,
but only for rows whose decode length still exceeds t. -/
def writeScores (buf : List (List (List ℚ))) (scores_for_timestep : List (List ℚ))
    (decode_lengths : List Nat) (t : Nat) : List (List (List ℚ)) :=
  List.zipWith (fun p d => if t < d then p.1.set t p.2 else p.1)
    (buf.zip scores_for_timestep) decode_lengths

/-- Python max over a tensor of Nats. -/
def maxList (l : List Nat) : Nat :=
  l.foldr max 0

/-- The for-loop of TopDownDecoder.forward (lines 70-97), as a recursion on
the remaining iterations (fuel = bound - t, the bound being fixed when the
range is created).  Returns the score buffer, the final decode lengths, and
the number of forward_step invocations performed. -/
def decodeLoop (m : BUTDModel σ ι ε) (coins : Nat → Bool)
    (target_sequences : Option (List (List Nat))) (v_mean image_features : List ι) :
    Nat → Nat → DecoderState σ → List Nat → List Nat → List (List (List ℚ)) →
    List (List (List ℚ)) × List Nat × Nat
  | _, 0, _, decode_lengths, _, buf => (buf, decode_lengths, 0)
  | t, fuel + 1, state, decode_lengths, prev_words, buf =>
    let dl1 := clampDecodeLengths m.token_end decode_lengths prev_words t
    if dl1.all (fun d => d ≤ t) then
      (buf, dl1, 0)
    else
      let fs := forward_step m state prev_words v_mean image_features
      let prev_words1 := update_previous_word m (coins t) fs.1 target_sequences t
      let buf1 := writeScores buf fs.1 dl1 t
      let r := decodeLoop m coins target_sequences v_mean image_features
        (t + 1) fuel fs.2 dl1 prev_words1 buf1
      (r.1, r.2.1, r.2.2 + 1)

/-- Lines 58-61: in evaluation mode the supplied decode_lengths argument is
overwritten with max_caption_len for every sequence in the batch. -/
def initDecodeLengths (m : BUTDModel σ ι ε) (batch_size : Nat)
    (decode_lengths : List Nat) : List Nat :=
  if m.training then decode_lengths
  else List.replicate batch_size m.max_caption_len

/-- TopDownDecoder.forward (lines 55-100), additionally exposing the number
of forward_step invocations. -/
def forwardWithCount (m : BUTDModel σ ι ε) (coins : Nat → Bool)
    (image_features : List ι) (target_sequences : Option (List (List Nat)))
    (decode_lengths : List Nat) :
    (List (List (List ℚ)) × Option Unit × List Nat) × Nat :=
  let batch_size := image_features.length
  let dl0 := initDecodeLengths m batch_size decode_lengths
  let v_mean := image_features.map m.mean_pool
  let sp := init_inference m batch_size
  let bound := maxList dl0
  let buf0 := List.replicate batch_size
    (List.replicate bound (List.replicate m.vocab_size (0 : ℚ)))
  let r := decodeLoop m coins target_sequences v_mean image_features
    0 bound sp.1 dl0 sp.2 buf0
  ((r.1, none, r.2.1), r.2.2)

/-- TopDownDecoder.forward: returns (scores, None, decode_lengths) -- the
second component is the Python literal None (the TODO-return-alphas slot at
lines 99-100). -/
def forward (m : BUTDModel σ ι ε) (coins : Nat → Bool) (image_features : List ι)
    (target_sequences : Option (List (List Nat))) (decode_lengths : List Nat) :
    List (List (List ℚ)) × Option Unit × List Nat :=
  (forwardWithCount m coins image_features target_sequences decode_lengths).1

/-- The four positional arguments the training loop hands to decoder.loss
(src/train.py lines 316-319), with the names used at the call site.  The
tuple returned by the decoder is unpacked there as
scores, decode_lengths, alphas = decoder(...), so the name decode_lengths
binds the decoder tuple's second component and alphas binds its third. -/
structure LossArgs where
  scores : List (List (List ℚ))
  target_captions : List (List Nat)
  decode_lengths : Option Unit
  alphas : List Nat

/-- One training-batch forward pass of src/train.py (lines 306-319): derive
decode lengths from caption lengths, call the decoder, unpack the result
triple positionally, and assemble the loss arguments. -/
def trainBatchLossArgs (m : BUTDModel σ ι ε) (coins : Nat → Bool)
    (images : List ι) (target_captions : List (List Nat))
    (caption_lengths : List Nat) : LossArgs :=
  let decode_lengths := caption_lengths.map (fun c => c - 1)
  let r := forward m coins images (some target_captions) decode_lengths
  { scores := r.1,
    target_captions := target_captions,
    decode_lengths := r.2.1,
    alphas := r.2.2 }

/-- A concrete decoder instance for evaluating the beam search: hidden-state
rows are step counters (each forward_step increments them), image features
and embeddings are trivial, and predict_word maps a row's counter to a fixed
score row via rowOf.  Vocabulary: 0, 1 = start, 2 = end, 3. -/
def demoModel (rowOf : Nat → List ℚ) : BUTDModel Nat Unit Nat :=
  { vocab_size := 4,
    token_start := 1,
    token_end := 2,
    max_caption_len := 50,
    training := false,
    h1 := 0, c1 := 0, h2 := 0, c2 := 0,
    mean_pool := fun u => u,
    embed_word := fun ws => ws,
    attention_lstm := fun h1 c1 _h2 _v_mean _emb => (h1.map (fun n => n + 1), c1),
    language_lstm := fun _h2 c2 h1 _v_hat => (h1, c2),
    attention := fun feats _h1 => feats,
    predict_word := fun h2 => h2.map rowOf }

/-- Step scores for the prev_words counterexample: at the first step token 3
scores highest and token 1 second (no end token in the top 2); afterwards
everything ties at 0. -/
def demoRowA : Nat → List ℚ
  | 1 => [0, 1, -5, 5]
  | _ => [0, 0, 0, 0]

/-- Step scores for the force-complete counterexample: at the first step as
in demoRowA; at the second step the end token (index 2) scores highest, so
exactly one of the two surviving beams completes there. -/
def demoRowB : Nat → List ℚ
  | 1 => [0, 1, -5, 5]
  | 2 => [0, 0, 3, 1]
  | _ => [0, 0, 0, 0]

/-- Beam-search demo model for the prev_words counterexample. -/
def M1 : BUTDModel Nat Unit Nat := demoModel demoRowA

/-- Beam-search demo model for the force-complete counterexample. -/
def M2 : BUTDModel Nat Unit Nat := demoModel demoRowB

/-- Decode-loop demo model: vocabulary 0 = start, 1 = end, batch scores make
every sequence emit the end token at step 0 (argmax of [0, 5] is 1). -/
def CM : BUTDModel Unit Unit Unit :=
  { vocab_size := 2,
    token_start := 0,
    token_end := 1,
    max_caption_len := 5,
    training := false,
    h1 := (), c1 := (), h2 := (), c2 := (),
    mean_pool := fun u => u,
    embed_word := fun ws => ws.map (fun _ => ()),
    attention_lstm := fun h1 c1 _h2 _v_mean _emb => (h1, c1),
    language_lstm := fun _h2 c2 h1 _v_hat => (h1, c2),
    attention := fun feats _h1 => feats,
    predict_word := fun h2 => h2.map (fun _ => [0, 5]) }

/-! Helper lemmas about the embedding's list primitives. -/

theorem exists_of_mem_zipWith {α β γ : Type} (f : α → β → γ) :
    ∀ (as : List α) (bs : List β), ∀ x ∈ List.zipWith f as bs,
      ∃ a ∈ as, ∃ b ∈ bs, x = f a b := by
  intro as
  induction as with
  | nil => intro bs x hx; simp [List.zipWith] at hx
  | cons a as ih =>
    intro bs x hx
    cases bs with
    | nil => simp [List.zipWith] at hx
    | cons b bs =>
      rw [List.zipWith_cons_cons] at hx
      rcases List.mem_cons.mp hx with hx | hx
      · exact ⟨a, List.mem_cons_self a as, b, List.mem_cons_self b bs, hx⟩
      · obtain ⟨a', ha', b', hb', hx'⟩ := ih bs x hx
        exact ⟨a', List.mem_cons_of_mem a ha', b', List.mem_cons_of_mem b hb', hx'⟩

theorem topkIdx_lt (xs : List ℚ) (k : Nat) :
    ∀ i ∈ topkIdx xs k, i < xs.length := by
  intro i hi
  unfold topkIdx topkPairs at hi
  obtain ⟨p, hp, rfl⟩ := List.mem_map.mp hi
  have hp' : p ∈ xs.enum.insertionSort topkRel := List.take_subset _ _ hp
  have hp'' : p ∈ xs.enum := (List.mem_insertionSort topkRel).mp hp'
  have := List.mem_enum_iff_getElem?.mp hp''
  exact (List.getElem?_eq_some.mp this).1

theorem topkIdx_nodup (xs : List ℚ) (k : Nat) : (topkIdx xs k).Nodup := by
  unfold topkIdx topkPairs
  rw [List.map_take]
  have hperm : List.Perm ((xs.enum.insertionSort topkRel).map Prod.fst)
      (xs.enum.map Prod.fst) :=
    (List.perm_insertionSort topkRel xs.enum).map Prod.fst
  have hnd : ((xs.enum.insertionSort topkRel).map Prod.fst).Nodup :=
    hperm.nodup_iff.mpr (List.nodup_enum_map_fst xs)
  exact hnd.sublist (List.take_sublist _ _)

theorem topkIdx_length (xs : List ℚ) (k : Nat) (h : k ≤ xs.length) :
    (topkIdx xs k).length = k := by
  unfold topkIdx topkPairs
  simp [List.length_take, List.enum_length]
  exact h

theorem flatten_length_const (rows : List (List ℚ)) (v : Nat)
    (h : ∀ r ∈ rows, r.length = v) : rows.flatten.length = rows.length * v := by
  induction rows with
  | nil => simp
  | cons r rs ih =>
    simp only [List.flatten_cons, List.length_append, List.length_cons]
    rw [h r (List.mem_cons_self r rs), ih (fun r' hr' => h r' (List.mem_cons_of_mem r hr')),
      Nat.succ_mul, Nat.add_comm]

theorem update_previous_word_of_not_training (m : BUTDModel σ ι ε)
    (h : m.training = false) (draw : Bool) (y : List (List ℚ))
    (target_words : Option (List (List Nat))) (t : Nat) :
    update_previous_word m draw y target_words t = argmaxRows y := by
  simp [update_previous_word, h]

instance : IsTotal (ℚ × List Nat) pairGe := by
  constructor
  intro p q
  rcases lt_trichotomy p.1 q.1 with h | h | h
  · exact Or.inr (Or.inl h)
  · rcases le_total p.2 q.2 with h2 | h2
    · exact Or.inr (Or.inr ⟨h.symm, h2⟩)
    · exact Or.inl (Or.inr ⟨h, h2⟩)
  · exact Or.inl (Or.inl h)

instance : IsTrans (ℚ × List Nat) pairGe := by
  constructor
  intro p q r hpq hqr
  rcases hpq with h1 | ⟨h1, h1'⟩
  · rcases hqr with h2 | ⟨h2, h2'⟩
    · exact Or.inl (h2.trans h1)
    · exact Or.inl (h2 ▸ h1)
  · rcases hqr with h2 | ⟨h2, h2'⟩
    · exact Or.inl (h1 ▸ h2)
    · exact Or.inr ⟨h1.trans h2, h2'.trans h1'⟩

/-- C2: every flattened top-k index selected by beam search decodes into
(source-beam-row, next-token) via integer quotient and remainder by
vocab_size, and the source rows are valid: on step 0 the flattened scores
are a single row (row 0), so the quotient is always row 0; on any later
step the flattened scores are the full (width x vocab_size) matrix, so the
quotient is below the number of beam rows.  The remainder is always a valid
vocabulary index. -/
theorem c2_topk_div_mod_valid (rows : List (List ℚ)) (vocab_size k : Nat)
    (h0 : 0 < vocab_size) (hrows : ∀ r ∈ rows, r.length = vocab_size) :
    (∀ i ∈ stepTopkWords (flattenForStep 0 rows) k,
      i / vocab_size = 0 ∧ i % vocab_size < vocab_size) ∧
    (∀ step, step ≠ 0 → ∀ i ∈ stepTopkWords (flattenForStep step rows) k,
      i / vocab_size < rows.length ∧ i % vocab_size < vocab_size) := by
  constructor
  · intro i hi
    have hlt : i < (flattenForStep 0 rows).length := topkIdx_lt _ k i hi
    have hrow0 : (flattenForStep 0 rows).length ≤ vocab_size := by
      unfold flattenForStep
      cases rows with
      | nil => simp
      | cons r rs => simpa using (hrows r (List.mem_cons_self r rs)).le
    exact ⟨Nat.div_eq_of_lt (lt_of_lt_of_le hlt hrow0), Nat.mod_lt i h0⟩
  · intro step hstep i hi
    have hlt : i < (flattenForStep step rows).length := topkIdx_lt _ k i hi
    have hflat : (flattenForStep step rows).length = rows.length * vocab_size := by
      unfold flattenForStep
      rw [if_neg hstep]
      exact flatten_length_const rows vocab_size hrows
    refine ⟨?_, Nat.mod_lt i h0⟩
    rw [Nat.div_lt_iff_lt_mul h0]
    exact hflat ▸ hlt

/-- C2 witness: at the concrete flattened 2 x 2 score matrix [[1,2],[3,4]]
with k = 3, the selected index 2 decodes to a valid row and token. -/
theorem c2_witness : 2 / 2 < 2 ∧ 2 % 2 < 2 :=
  (c2_topk_div_mod_valid [[1, 2], [3, 4]] 2 3 (by decide) (by decide)).2
    1 (by decide) 2 (by decide)

/-- C4: at step 0 beam search restricts topk to a single vocabulary row, so
with beam size K > 1 (and K at most vocab_size) the K freshly selected next
words are pairwise distinct, there are exactly K of them, every selected
source row is row 0, and they are not K copies of a single best token. -/
theorem c4_first_step_distinct (vocab_size K : Nat) (scoresAdded : List (List ℚ))
    (hK : 1 < K) (hKv : K ≤ vocab_size)
    (hrow : (scoresAdded.getD 0 []).length = vocab_size) :
    (stepNextWords vocab_size (stepTopkWords (flattenForStep 0 scoresAdded) K)).Nodup ∧
    (stepNextWords vocab_size (stepTopkWords (flattenForStep 0 scoresAdded) K)).length = K ∧
    (∀ r ∈ stepPrevSeqInds vocab_size (stepTopkWords (flattenForStep 0 scoresAdded) K),
      r = 0) ∧
    stepNextWords vocab_size (stepTopkWords (flattenForStep 0 scoresAdded) K) ≠
      List.replicate K
        ((stepNextWords vocab_size
          (stepTopkWords (flattenForStep 0 scoresAdded) K)).headD 0) := by
  have hflat : (flattenForStep 0 scoresAdded).length = vocab_size := by
    unfold flattenForStep; simpa using hrow
  have hmemlt : ∀ i ∈ stepTopkWords (flattenForStep 0 scoresAdded) K, i < vocab_size := by
    intro i hi
    exact hflat ▸ topkIdx_lt _ K i hi
  have hid : stepNextWords vocab_size (stepTopkWords (flattenForStep 0 scoresAdded) K) =
      stepTopkWords (flattenForStep 0 scoresAdded) K := by
    unfold stepNextWords
    rw [List.map_congr_left (fun i hi => Nat.mod_eq_of_lt (hmemlt i hi))]
    exact List.map_id _
  have hnd : (stepNextWords vocab_size
      (stepTopkWords (flattenForStep 0 scoresAdded) K)).Nodup := by
    rw [hid]; exact topkIdx_nodup _ K
  have hlen : (stepNextWords vocab_size
      (stepTopkWords (flattenForStep 0 scoresAdded) K)).length = K := by
    rw [hid]; exact topkIdx_length _ K (hflat ▸ hKv)
  refine ⟨hnd, hlen, ?_, ?_⟩
  · intro r hr
    obtain ⟨i, hi, rfl⟩ := List.mem_map.mp hr
    exact Nat.div_eq_of_lt (hmemlt i hi)
  · intro hrep
    have := hrep ▸ hnd
    rw [List.nodup_replicate] at this
    omega

/-- C4 witness: with vocabulary size 4, beam size 2, and the concrete step-0
score matrix [[0,1,-5,5],[0,1,-5,5]] (identical rows, non-uniform scores),
the two selected first tokens are distinct and number exactly 2. -/
theorem c4_witness :
    (stepNextWords 4 (stepTopkWords (flattenForStep 0 [[0, 1, -5, 5], [0, 1, -5, 5]]) 2)).Nodup ∧
    (stepNextWords 4 (stepTopkWords (flattenForStep 0 [[0, 1, -5, 5], [0, 1, -5, 5]]) 2)).length = 2 :=
  ⟨(c4_first_step_distinct 4 2 [[0, 1, -5, 5], [0, 1, -5, 5]] (by decide) (by decide)
      (by decide)).1,
   (c4_first_step_distinct 4 2 [[0, 1, -5, 5], [0, 1, -5, 5]] (by decide) (by decide)
      (by decide)).2.1⟩

/-- C5 counterexample: finalizing completed hypotheses with scores
[9, 5, 9, 1] (insertion order: sequences [1,0,2], [1,1,2], [1,3,2], [1,2])
returns the two equal-score (9) hypotheses with [1,3,2] FIRST, i.e. ordered
by descending comparison of the sequences themselves, not in their original
insertion order ([1,0,2] was inserted before [1,3,2]). -/
theorem c5_counterexample :
    sortCompleted [9, 5, 9, 1] [[1, 0, 2], [1, 1, 2], [1, 3, 2], [1, 2]] =
      [[1, 3, 2], [1, 0, 2], [1, 1, 2], [1, 2]] ∧
    sortCompleted [9, 5, 9, 1] [[1, 0, 2], [1, 1, 2], [1, 3, 2], [1, 2]] ≠
      [[1, 0, 2], [1, 3, 2], [1, 1, 2], [1, 2]] := by
  constructor
  · decide
  · decide

/-- C5 (amended): finalization sorts the zipped (score, sequence) pairs in
descending Python pair order -- score descending, score ties broken by
descending comparison of the sequences themselves -- and the result is a
permutation of the input pairs; the returned sequences are the second
components in that order. -/
theorem c5_sort_descending (complete_seqs_scores : List ℚ)
    (complete_seqs : List (List Nat)) :
    List.Sorted pairGe
      ((complete_seqs_scores.zip complete_seqs).insertionSort pairGe) ∧
    List.Perm ((complete_seqs_scores.zip complete_seqs).insertionSort pairGe)
      (complete_seqs_scores.zip complete_seqs) ∧
    sortCompleted complete_seqs_scores complete_seqs =
      ((complete_seqs_scores.zip complete_seqs).insertionSort pairGe).map Prod.snd := by
  refine ⟨List.sorted_insertionSort pairGe _, List.perm_insertionSort pairGe _, rfl⟩

/-- C1 counterexample, on the concrete model M1 (vocabulary 4, start = 1,
end = 2, beam size 2, max length 4, first-step scores [0,1,-5,5]): the
previous-token tensor fed to forward_step at step 1 for surviving beam 1 is
3 (the rowwise greedy argmax computed by update_previous_word before the
top-k selection, never reindexed by the survivor mapping), while the token
appended to beam 1's sequence at step 0 was 1. -/
theorem c1_prev_word_mismatch :
    ((beamSearchRun M1 (fun _ => false) () 2 4 false).toOption.bind
      (fun r => (r.2.get? 1).bind (fun e => e.prevFed.get? 1))) = some 3 ∧
    ((beamSearchRun M1 (fun _ => false) () 2 4 false).toOption.bind
      (fun r => (r.2.get? 0).bind
        (fun e => (e.seqsKept.get? 1).bind List.getLast?))) = some 1 ∧
    ((beamSearchRun M1 (fun _ => false) () 2 4 false).toOption.bind
      (fun r => (r.2.get? 1).bind (fun e => e.prevFed.get? 1))) ≠
    ((beamSearchRun M1 (fun _ => false) () 2 4 false).toOption.bind
      (fun r => (r.2.get? 0).bind
        (fun e => (e.seqsKept.get? 1).bind List.getLast?))) := by
  refine ⟨by with_unfolding_all decide, by with_unfolding_all decide,
    by with_unfolding_all decide⟩

/-- C3 counterexample, on the concrete model M2 (beam size 2, max length 3):
at the final step exactly one of the two beams completes (1 < beam_size
hypotheses completed in total), and the force-complete at line 265 then
re-applies the last iteration's incomplete index list [1] to the already
filtered one-row arrays, raising IndexError instead of returning beam_size
hypotheses. -/
theorem c3_force_complete_index_error :
    beam_search M2 (fun _ => false) () 2 3 false false =
      Except.error BeamErr.indexError ∧
    (beamSearchRun M2 (fun _ => false) () 2 3 false).toOption.map
      (fun r => (r.1.complete_seqs.length, r.1.incomplete_inds)) =
      some (1, some [1]) := by
  refine ⟨by with_unfolding_all rfl, by with_unfolding_all decide⟩

/-- C8 counterexample: calling beam_search with store_alphas on the valid
concrete model M1 raises UnboundLocalError (the local variable alpha at
line 227 is read but never assigned) at the first step; with a maximum
caption length too small for the loop body to run it raises NameError at
line 265 instead.  In neither case does the call complete and return
attention maps. -/
theorem c8_store_alphas_raises :
    beam_search M1 (fun _ => false) () 2 4 true false =
      Except.error BeamErr.unboundLocalAlpha ∧
    beam_search M1 (fun _ => false) () 2 1 true false =
      Except.error BeamErr.nameErrorIncompleteInds := by
  refine ⟨by with_unfolding_all rfl, by with_unfolding_all rfl⟩

theorem beamSearchStep_coin_irrel (m : BUTDModel σ ι ε) (h : m.training = false)
    (d1 d2 : Bool) (v_mean : List ι) (store_alphas : Bool) (step : Nat)
    (L : BeamLocals σ ι) :
    beamSearchStep m d1 v_mean store_alphas step L =
      beamSearchStep m d2 v_mean store_alphas step L := by
  simp only [beamSearchStep, update_previous_word_of_not_training m h]

theorem beamSearchLoop_coin_irrel (m : BUTDModel σ ι ε) (h : m.training = false)
    (coins1 coins2 : Nat → Bool) (v_mean : List ι) (store_alphas : Bool) :
    ∀ (fuel step : Nat) (L : BeamLocals σ ι) (tr : List TraceEntry),
      beamSearchLoop m coins1 v_mean store_alphas step fuel L tr =
        beamSearchLoop m coins2 v_mean store_alphas step fuel L tr := by
  intro fuel
  induction fuel with
  | zero => intro step L tr; rfl
  | succ n ih =>
    intro step L tr
    simp only [beamSearchLoop]
    rw [beamSearchStep_coin_irrel m h (coins1 step) (coins2 step)]
    cases beamSearchStep m (coins2 step) v_mean store_alphas step L with
    | error e => rfl
    | ok x =>
      obtain ⟨L1, seqsAll, brk⟩ := x
      simp only
      cases brk with
      | true => rfl
      | false => exact ih (step + 1) L1 _

/-- C6: beam search is deterministic.  With training off, no randomness is
consumed: the result of beam_search does not depend on the stream of
teacher-forcing draws (the only randomness source of the decoder), and the
embedding itself is a pure function of the model and arguments, with the
topk/sort tie policy fixed (largest score first, then smallest index). -/
theorem c6_beam_search_deterministic (m : BUTDModel σ ι ε) (h : m.training = false)
    (coins1 coins2 : Nat → Bool) (image_feature : ι)
    (beam_size max_caption_len : Nat) (store_alphas print_beam : Bool) :
    beam_search m coins1 image_feature beam_size max_caption_len store_alphas
        print_beam =
      beam_search m coins2 image_feature beam_size max_caption_len store_alphas
        print_beam := by
  unfold beam_search beamSearchRun
  rw [beamSearchLoop_coin_irrel m h coins1 coins2]

/-- C6 witness: two beam_search calls on the concrete model M1 with
different coin streams return identical ranked hypothesis lists. -/
theorem c6_witness :
    beam_search M1 (fun _ => false) () 2 4 false false =
      beam_search M1 (fun _ => true) () 2 4 false false :=
  c6_beam_search_deterministic M1 rfl (fun _ => false) (fun _ => true) () 2 4
    false false

theorem decodeLoop_count_zero_of_prev_end (m : BUTDModel σ ι ε) (coins : Nat → Bool)
    (target_sequences : Option (List (List Nat))) (v_mean image_features : List ι) :
    ∀ (fuel t : Nat) (state : DecoderState σ) (dl prev : List Nat)
      (buf : List (List (List ℚ))),
      (∀ w ∈ prev, w = m.token_end) →
      (decodeLoop m coins target_sequences v_mean image_features
          t fuel state dl prev buf).2.2 = 0 := by
  intro fuel t state dl prev buf hp
  cases fuel with
  | zero => rfl
  | succ n =>
    have hall : (clampDecodeLengths m.token_end dl prev t).all
        (fun d => d ≤ t) = true := by
      rw [List.all_eq_true]
      intro x hx
      obtain ⟨d, _, w, hw, rfl⟩ :=
        exists_of_mem_zipWith _ dl prev x hx
      rw [decide_eq_true_eq, if_pos (hp w hw)]
      exact Nat.min_le_right d t
    simp [decodeLoop, hall]

theorem decodeLoop_early_exit (m : BUTDModel σ ι ε) (coins : Nat → Bool)
    (target_sequences : Option (List (List Nat))) (v_mean image_features : List ι)
    (t fuel : Nat) (state : DecoderState σ) (dl prev : List Nat)
    (buf : List (List (List ℚ)))
    (h : (clampDecodeLengths m.token_end dl prev t).all (fun d => d ≤ t) = true) :
    decodeLoop m coins target_sequences v_mean image_features
        t (fuel + 1) state dl prev buf =
      (buf, clampDecodeLengths m.token_end dl prev t, 0) := by
  simp [decodeLoop, h]

/-- C7: early termination of the decode loop.  First, whenever at timestep t
every sequence's clamped decode length is at most t, the loop returns
immediately (the unchanged buffer, zero further forward_step invocations)
without invoking the step function.  Second, if with training off every
sequence's argmax at the first step is the end token, the whole forward pass
performs at most one forward_step invocation. -/
theorem c7_early_termination (m : BUTDModel σ ι ε) (coins : Nat → Bool)
    (target_sequences : Option (List (List Nat))) :
    (∀ (v_mean image_features : List ι) (t fuel : Nat) (state : DecoderState σ)
      (dl prev : List Nat) (buf : List (List (List ℚ))),
      (clampDecodeLengths m.token_end dl prev t).all (fun d => d ≤ t) = true →
      decodeLoop m coins target_sequences v_mean image_features
          t (fuel + 1) state dl prev buf =
        (buf, clampDecodeLengths m.token_end dl prev t, 0)) ∧
    (∀ (feats : List ι) (dlArg : List Nat),
      m.training = false →
      (∀ row ∈ (forward_step m (init_inference m feats.length).1
          (init_inference m feats.length).2 (feats.map m.mean_pool) feats).1,
        argmaxIdx row = m.token_end) →
      (forwardWithCount m coins feats target_sequences dlArg).2 ≤ 1) := by
  constructor
  · intro v_mean image_features t fuel state dl prev buf h
    exact decodeLoop_early_exit m coins target_sequences v_mean image_features
      t fuel state dl prev buf h
  · intro feats dlArg htr hrow
    simp only [forwardWithCount]
    generalize maxList (initDecodeLengths m feats.length dlArg) = bound
    cases bound with
    | zero => simp [decodeLoop]
    | succ n =>
      by_cases hc : (clampDecodeLengths m.token_end
          (initDecodeLengths m feats.length dlArg)
          (init_inference m feats.length).2 0).all (fun d => d ≤ 0) = true
      · rw [decodeLoop_early_exit m coins target_sequences _ _ 0 n _ _ _ _ hc]
        simp
      · simp only [decodeLoop, hc, if_false, Bool.false_eq_true]
        rw [update_previous_word_of_not_training m htr]
        rw [decodeLoop_count_zero_of_prev_end m coins target_sequences _ _ n 1 _ _ _ _ ?_]
        · intro w hw
          obtain ⟨row, hrow', rfl⟩ := List.mem_map.mp hw
          exact hrow row hrow'

/-- C7 witness: part one at a concrete loop state (every decode length
clamped at or below t = 5), part two on the concrete decoder CM whose every
first-step argmax is the end token. -/
theorem c7_witness :
    decodeLoop CM (fun _ => false) none [] [] 5 1 ⟨[], [], [], []⟩ [3] [1] [[]] =
      ([[]], clampDecodeLengths CM.token_end [3] [1] 5, 0) ∧
    (forwardWithCount CM (fun _ => false) [()] none []).2 ≤ 1 :=
  ⟨(c7_early_termination CM (fun _ => false) none).1 [] [] 5 0 ⟨[], [], [], []⟩
      [3] [1] [[]] (by decide),
   (c7_early_termination CM (fun _ => false) none).2 [()] [] rfl (by decide)⟩

/-- C9: for every input, TopDownDecoder.forward returns a triple whose
second component is the Python literal None (attention weights are never
produced; the alphas return is a TODO) while the third is the decode-lengths
tensor; the training loop unpacks the triple as
scores, decode_lengths, alphas = decoder(...), so the value it passes to
the loss in the decode_lengths position is that constant None and the value
in the alphas position is the decode-lengths tensor. -/
theorem c9_forward_returns_none_alphas (m : BUTDModel σ ι ε) (coins : Nat → Bool)
    (images : List ι) (target_captions : List (List Nat))
    (caption_lengths : List Nat) :
    (trainBatchLossArgs m coins images target_captions caption_lengths).decode_lengths
        = none ∧
    (trainBatchLossArgs m coins images target_captions caption_lengths).alphas =
      (forward m coins images (some target_captions)
        (caption_lengths.map (fun c => c - 1))).2.2 ∧
    ∀ (feats : List ι) (targets : Option (List (List Nat))) (dl : List Nat),
      (forward m coins feats targets dl).2.1 = none :=
  ⟨rfl, rfl, fun _ _ _ => rfl⟩

/-- C10: in evaluation mode (training off) the decode lengths are
initialized to max_caption_len for every sequence in the batch, and the
result of forward does not depend on the decode_lengths argument supplied by
the caller. -/
theorem c10_eval_ignores_decode_lengths (m : BUTDModel σ ι ε)
    (h : m.training = false) (coins : Nat → Bool) (image_features : List ι)
    (target_sequences : Option (List (List Nat))) (dl1 dl2 : List Nat) :
    initDecodeLengths m image_features.length dl1 =
      List.replicate image_features.length m.max_caption_len ∧
    forward m coins image_features target_sequences dl1 =
      forward m coins image_features target_sequences dl2 := by
  constructor
  · simp [initDecodeLengths, h]
  · simp [forward, forwardWithCount, initDecodeLengths, h]

/-- C10 witness: on the concrete model CM (evaluation mode), two forward
calls with different supplied decode lengths coincide. -/
theorem c10_witness :
    forward CM (fun _ => false) [()] none [3] =
      forward CM (fun _ => false) [()] none [7] :=
  (c10_eval_ignores_decode_lengths CM rfl (fun _ => false) [()] none [3] [7]).2
